import Mathlib

/-!
Verification of the stress-test harness of the scholar-map repository
(`src/stress_test_data.py`).  The store is modelled as a list of rows and
each SQL statement issued by the harness as a Lean function over that
list; the arithmetic performed on Python floats is modelled over `ℚ`.
-/

namespace ScholarMap

/-- One stored row of the `research_papers_kb` table, as read by the
integrity checks in `KnowledgeBaseTestSuite.test_data_integrity`
(`src/stress_test_data.py`).  SQL `NULL` and `''` are both modelled as
the empty string. -/
structure Row where
  title : String
  authors : String
  abstract : String
  category : String
  research_field : String
  citation_count : Int
deriving DecidableEq

/-- Title column of the store. -/
def titles (store : List Row) : List String := store.map Row.title

/-- Count query of the audit, line 334: `SELECT COUNT(*) FROM research_papers_kb`. -/
def total_records (store : List Row) : Nat := store.length

/-- Missing-field query of the audit, lines 344-350: rows whose title,
authors or abstract column is `NULL` or empty. -/
def records_with_missing_fields (store : List Row) : Nat :=
  store.countP (fun r => r.title == "" || r.authors == "" || r.abstract == "")

/-- Duplicate-title query of the audit, lines 357-365: the inner query
groups rows by title keeping the groups with `COUNT(*) > 1`, and the
outer query counts those groups — one count per distinct colliding
title value. -/
def duplicate_titles (store : List Row) : Nat :=
  ((titles store).dedup.filter (fun t => decide (1 < (titles store).count t))).length

/-- Invalid-citation query of the audit, line 374: rows whose
`citation_count` is negative. -/
def invalid_citations (store : List Row) : Nat :=
  store.countP (fun r => decide (r.citation_count < 0))

/-- Spec-stated variant of the duplicate-title figure, written from the
spec's words for comparison with `duplicate_titles`: the number of
records that participate in a title collision, i.e. rows whose title
value appears more than once among stored records. -/
def duplicate_title_records_spec (store : List Row) : Nat :=
  store.countP (fun r => decide (1 < (titles store).count r.title))

/-- A concrete store: one title shared by exactly three rows, every
other title unique, all other columns well formed. -/
def exRow (t : String) : Row :=
  { title := t, authors := "Doe, J.", abstract := "text", category := "cs.AI"
    research_field := "Machine Learning", citation_count := 1 }

/-- Store of five rows with titles A, A, A, B, C. -/
def exStore1 : List Row := [exRow "A", exRow "A", exRow "A", exRow "B", exRow "C"]

theorem dedup_filter_length (p : α → Bool) [DecidableEq α] (l : List α) :
    (l.dedup.filter p).length = (l.filter p).dedup.length := by
  have h₁ : (l.dedup.filter p).Nodup := (l.nodup_dedup).filter p
  have h₂ : ((l.filter p).dedup).Nodup := (l.filter p).nodup_dedup
  have hmem : ∀ a, a ∈ l.dedup.filter p ↔ a ∈ (l.filter p).dedup := by
    intro a
    simp [List.mem_filter, List.mem_dedup, and_comm]
  exact ((List.perm_ext_iff_of_nodup h₁ h₂).mpr hmem).length_eq

/-- C1 counterexample: in `exStore1` one title is shared by exactly 3
rows and every other title is unique, yet the audit reports a
duplicate-title figure of 1 (one colliding title), not 3 (the number of
colliding records) as the claim states. -/
theorem duplicate_titles_counts_titles_not_records :
    duplicate_titles exStore1 = 1 ∧ duplicate_title_records_spec exStore1 = 3 ∧
      (1 : Nat) ≠ 3 := by
  refine ⟨by decide, by decide, by decide⟩

/-- C1 (amended): the duplicate-title figure reported by the integrity
audit equals the number of *distinct* title values that occur more than
once among stored records (each colliding title counted once), which is
at most — and in general not equal to — the number of records that
participate in a collision. -/
theorem duplicate_titles_eq_distinct_colliding_titles (store : List Row) :
    duplicate_titles store =
      ((titles store).toFinset.filter
        (fun t => 1 < (titles store).count t)).card ∧
    duplicate_titles store ≤ duplicate_title_records_spec store := by
  constructor
  · have h : ((titles store).filter
        (fun t => decide (1 < (titles store).count t))).toFinset =
        (titles store).toFinset.filter (fun t => 1 < (titles store).count t) := by
      ext a
      simp [List.mem_filter]
    rw [← h, List.card_toFinset, duplicate_titles, dedup_filter_length]
  · calc duplicate_titles store
        ≤ ((titles store).filter
            (fun t => decide (1 < (titles store).count t))).length :=
          ((titles store).dedup_sublist.filter _).length_le
      _ = duplicate_title_records_spec store := by
          simp [titles, duplicate_title_records_spec, ← List.countP_eq_length_filter,
            List.countP_map, Function.comp_def]

/-- Distribution query of the audit (lines 381-392): group rows by a
column, order groups by count descending, keep the first 10. -/
def distribution_top10 (vals : List String) : List (String × Nat) :=
  (List.insertionSort (fun a b : String × Nat => b.2 ≤ a.2)
    (vals.dedup.map (fun c => (c, vals.count c)))).take 10

/-- The result dictionary of `test_data_integrity` (lines 321-330). -/
structure IntegrityReport where
  total_records : Nat
  records_with_missing_fields : Nat
  duplicate_titles : Nat
  invalid_dates : Nat
  invalid_citations : Nat
  category_distribution : List (String × Nat)
  field_distribution : List (String × Nat)
  integrity_score : ℚ
deriving DecidableEq

/-- The initial result dictionary (lines 321-330): every count zero,
empty distributions, score 0.  It is returned unchanged when the store
holds no records (lines 340-341). -/
def emptyIntegrityReport : IntegrityReport :=
  { total_records := 0, records_with_missing_fields := 0, duplicate_titles := 0
    invalid_dates := 0, invalid_citations := 0, category_distribution := []
    field_distribution := [], integrity_score := 0 }

/-- Integrity-score arithmetic of lines 394-402:
`max(0, 100 - total_issues / total_records * 100)`. -/
def integrity_score_calc (total issues : Nat) : ℚ :=
  max 0 (100 - ((issues : ℚ) / (total : ℚ)) * 100)

/-- `KnowledgeBaseTestSuite.test_data_integrity` (lines 319-407): runs
the count query; when the store is empty it returns the initial report
at once, otherwise it issues the five further queries (missing fields,
duplicate titles, invalid citations, category distribution, field
distribution) and computes the score.  The second component is the
number of store queries issued after the initial count. -/
def test_data_integrity (store : List Row) : IntegrityReport × Nat :=
  if total_records store = 0 then (emptyIntegrityReport, 0)
  else
    ({ total_records := total_records store
       records_with_missing_fields := records_with_missing_fields store
       duplicate_titles := duplicate_titles store
       invalid_dates := 0
       invalid_citations := invalid_citations store
       category_distribution := distribution_top10 (store.map Row.category)
       field_distribution := distribution_top10 (store.map Row.research_field)
       integrity_score := integrity_score_calc (total_records store)
         (records_with_missing_fields store + duplicate_titles store +
           invalid_citations store) }, 5)

/-- C4: on a non-empty store the audit's score is
`max(0, 100 - (missing + duplicates + invalidCitations) / totalRecords * 100)`,
it is never negative (even when the issue total exceeds the record
count), and the arithmetic yields 90 at totalRecords = 100 with issue
counts 5, 3 and 2. -/
theorem integrity_score_formula (store : List Row) (h : 0 < total_records store) :
    (test_data_integrity store).1.integrity_score =
      max 0 (100 - (((records_with_missing_fields store : ℚ) +
        (duplicate_titles store : ℚ) + (invalid_citations store : ℚ)) /
        (total_records store : ℚ)) * 100) ∧
    0 ≤ (test_data_integrity store).1.integrity_score ∧
    integrity_score_calc 100 (5 + 3 + 2) = 90 := by
  have hne : ¬ total_records store = 0 := Nat.pos_iff_ne_zero.mp h
  refine ⟨?_, ?_, ?_⟩
  · simp [test_data_integrity, hne, integrity_score_calc]
  · simp [test_data_integrity, hne, integrity_score_calc]
  · norm_num [integrity_score_calc]

/-- Witness for `integrity_score_formula` at a concrete one-row store. -/
theorem integrity_score_formula_witness :
    0 < total_records [exRow "W"] ∧
      ((test_data_integrity [exRow "W"]).1.integrity_score =
        max 0 (100 - (((records_with_missing_fields [exRow "W"] : ℚ) +
          (duplicate_titles [exRow "W"] : ℚ) + (invalid_citations [exRow "W"] : ℚ)) /
          (total_records [exRow "W"] : ℚ)) * 100) ∧
      0 ≤ (test_data_integrity [exRow "W"]).1.integrity_score ∧
      integrity_score_calc 100 (5 + 3 + 2) = 90) :=
  ⟨by decide, integrity_score_formula [exRow "W"] (by decide)⟩

/-- C6: when the initial count reports zero stored records the audit
returns at once: every issue count is zero, the score is 0, and no
further query is issued against the store. -/
theorem audit_empty_store (store : List Row) (h : total_records store = 0) :
    (test_data_integrity store).1.records_with_missing_fields = 0 ∧
    (test_data_integrity store).1.duplicate_titles = 0 ∧
    (test_data_integrity store).1.invalid_dates = 0 ∧
    (test_data_integrity store).1.invalid_citations = 0 ∧
    (test_data_integrity store).1.total_records = 0 ∧
    (test_data_integrity store).1.integrity_score = 0 ∧
    (test_data_integrity store).2 = 0 := by
  simp [test_data_integrity, h, emptyIntegrityReport]

/-- Witness for `audit_empty_store` at the empty store. -/
theorem audit_empty_store_witness :
    (test_data_integrity []).1.records_with_missing_fields = 0 ∧
    (test_data_integrity []).1.duplicate_titles = 0 ∧
    (test_data_integrity []).1.invalid_dates = 0 ∧
    (test_data_integrity []).1.invalid_citations = 0 ∧
    (test_data_integrity []).1.total_records = 0 ∧
    (test_data_integrity []).1.integrity_score = 0 ∧
    (test_data_integrity []).2 = 0 :=
  audit_empty_store [] rfl

/-- Score list built by `run_full_test_suite` (lines 431-446): 100 when
the connection test passed; the search success rate
`successful_queries / total_queries * 100` only when at least one search
query succeeded; the AI-response success rate only when at least one
response succeeded; the integrity score always. -/
def suite_scores (conn : Bool) (perf_succ perf_total ai_succ ai_total : Nat)
    (integ : ℚ) : List ℚ :=
  (if conn then [(100 : ℚ)] else []) ++
  (if 0 < perf_succ then [(perf_succ : ℚ) / (perf_total : ℚ) * 100] else []) ++
  (if 0 < ai_succ then [(ai_succ : ℚ) / (ai_total : ℚ) * 100] else []) ++
  [integ]

/-- Overall score of `run_full_test_suite` (line 448):
`sum(scores) / len(scores) if scores else 0`. -/
def overall_score (conn : Bool) (perf_succ perf_total ai_succ ai_total : Nat)
    (integ : ℚ) : ℚ :=
  if (suite_scores conn perf_succ perf_total ai_succ ai_total integ).length = 0
  then 0
  else (suite_scores conn perf_succ perf_total ai_succ ai_total integ).sum /
    ((suite_scores conn perf_succ perf_total ai_succ ai_total integ).length : ℚ)

/-- C3 counterexample: with the store reachable, a probe of 5 queries
that all failed, an AI stage of 5 responses that all failed and an
integrity score of 50, the code averages only the connectivity and
integrity components, giving 75; the claim's mean, which lets the
all-failed probe contribute a score of 0, would be 50. -/
theorem overall_score_skips_failed_probe :
    overall_score true 0 5 0 5 50 = 75 ∧
    (100 + ((0 : ℚ) / 5) * 100 + 50) / 3 = 50 ∧ (75 : ℚ) ≠ 50 := by
  refine ⟨?_, by norm_num, by norm_num⟩
  norm_num [overall_score, suite_scores]

/-- C3 (amended): the overall score is the arithmetic mean of exactly
these component scores: 100 when the connectivity test passed, the
probe's success rate only when the probe had at least one successful
query (an all-failed probe contributes nothing), the AI-response
stage's success rate only when it had at least one successful response,
and the integrity score always. -/
theorem overall_score_closed_form (conn : Bool)
    (perf_succ perf_total ai_succ ai_total : Nat) (integ : ℚ) :
    overall_score conn perf_succ perf_total ai_succ ai_total integ =
      ((if conn then (100 : ℚ) else 0) +
        (if 0 < perf_succ then (perf_succ : ℚ) / (perf_total : ℚ) * 100 else 0) +
        (if 0 < ai_succ then (ai_succ : ℚ) / (ai_total : ℚ) * 100 else 0) + integ) /
      (((if conn then 1 else 0) + (if 0 < perf_succ then 1 else 0) +
        (if 0 < ai_succ then 1 else 0) + 1 : Nat) : ℚ) := by
  rcases conn with _ | _ <;>
    rcases Nat.eq_zero_or_pos perf_succ with rfl | hp <;>
    rcases Nat.eq_zero_or_pos ai_succ with rfl | ha <;>
    simp [overall_score, suite_scores, *] <;> ring

/-- Number of batches issued by `stress_test_insertion` (line 1251):
`(total_records + batch_size - 1) // batch_size`. -/
def num_batches (total_records batch_size : Nat) : Nat :=
  (total_records + batch_size - 1) / batch_size

/-- Requested size of batch `batch_num` (lines 1274-1275):
`min(batch_size, total_records - batch_num * batch_size)`. -/
def current_batch_size (total_records batch_size batch_num : Nat) : Nat :=
  min batch_size (total_records - batch_num * batch_size)

/-- Sequence of requested batch sizes of the insertion loop
(lines 1270-1275). -/
def batch_sizes (total_records batch_size : Nat) : List Nat :=
  (List.range (num_batches total_records batch_size)).map
    (current_batch_size total_records batch_size)

theorem sum_current_batch_sizes (t b n : Nat) :
    ((List.range n).map (current_batch_size t b)).sum = min (n * b) t := by
  induction n with
  | zero => simp
  | succ n ih =>
      rw [List.range_succ, List.map_append, List.sum_append, Nat.succ_mul]
      simp only [List.map_cons, List.map_nil, List.sum_cons, List.sum_nil, ih,
        current_batch_size]
      generalize n * b = m
      omega

theorem num_batches_bounds (t b : Nat) (hb : 1 ≤ b) (ht : 1 ≤ t) :
    (num_batches t b - 1) * b < t ∧ t ≤ num_batches t b * b := by
  have hmod := Nat.div_add_mod (t + b - 1) b
  have hr : (t + b - 1) % b < b := Nat.mod_lt _ (by omega)
  unfold num_batches
  rw [Nat.sub_mul, one_mul, Nat.mul_comm ((t + b - 1) / b) b]
  generalize b * ((t + b - 1) / b) = m at hmod ⊢
  omega

theorem num_batches_pos (t b : Nat) (hb : 1 ≤ b) (ht : 1 ≤ t) :
    1 ≤ num_batches t b := by
  rcases Nat.eq_zero_or_pos (num_batches t b) with h | h
  · have h2 := (num_batches_bounds t b hb ht).2
    rw [h] at h2
    omega
  · exact h

theorem num_batches_eq_ceil (t b : Nat) (hb : 1 ≤ b) (ht : 1 ≤ t) :
    (num_batches t b : ℤ) = ⌈(t : ℚ) / (b : ℚ)⌉ := by
  obtain ⟨h1, h2⟩ := num_batches_bounds t b hb ht
  have hb0 : (0 : ℚ) < (b : ℚ) := by exact_mod_cast hb
  have hn := num_batches_pos t b hb ht
  symm
  rw [Int.ceil_eq_iff]
  constructor
  · rw [lt_div_iff₀ hb0]
    have h1q : (((num_batches t b - 1) * b : Nat) : ℚ) < (t : ℚ) := by
      exact_mod_cast h1
    rw [Nat.cast_mul, Nat.cast_sub hn] at h1q
    push_cast
    push_cast at h1q
    linarith
  · rw [div_le_iff₀ hb0]
    exact_mod_cast h2

/-- C5: for every `totalCount ≥ 1` and `batchSize ≥ 1` the insertion
loop issues exactly `ceil(totalCount/batchSize)` batches; every batch
but the last requests exactly `batchSize` records, the last requests
`totalCount - (numBatches-1)*batchSize`, every requested size lies in
`[1, batchSize]`, and the requested sizes sum to `totalCount`. -/
theorem batch_partition (t b : Nat) (ht : 1 ≤ t) (hb : 1 ≤ b) :
    (((batch_sizes t b).length : ℤ) = ⌈(t : ℚ) / (b : ℚ)⌉) ∧
    (batch_sizes t b).sum = t ∧
    (∀ i, ∀ h : i < (batch_sizes t b).length,
      i + 1 < (batch_sizes t b).length → (batch_sizes t b).get ⟨i, h⟩ = b) ∧
    (∀ h : (batch_sizes t b).length - 1 < (batch_sizes t b).length,
      (batch_sizes t b).get ⟨(batch_sizes t b).length - 1, h⟩ =
        t - ((batch_sizes t b).length - 1) * b) ∧
    (∀ s ∈ batch_sizes t b, 1 ≤ s ∧ s ≤ b) := by
  obtain ⟨hlow, hhigh⟩ := num_batches_bounds t b hb ht
  have hn := num_batches_pos t b hb ht
  have hlen : (batch_sizes t b).length = num_batches t b := by
    simp [batch_sizes]
  refine ⟨?_, ?_, ?_, ?_, ?_⟩
  · rw [hlen]
    exact num_batches_eq_ceil t b hb ht
  · rw [batch_sizes, sum_current_batch_sizes]
    exact Nat.min_eq_right hhigh
  · intro i h hi
    rw [hlen] at hi
    have hib : (i + 1) * b ≤ (num_batches t b - 1) * b :=
      Nat.mul_le_mul_right b (by omega)
    rw [Nat.add_mul, one_mul] at hib
    simp only [batch_sizes, List.get_eq_getElem, List.getElem_map,
      List.getElem_range, current_batch_size]
    generalize i * b = m at hib ⊢
    omega
  · intro h
    have hget : ∀ j, ∀ hj : j < (batch_sizes t b).length,
        (batch_sizes t b).get ⟨j, hj⟩ = current_batch_size t b j := by
      intro j hj
      simp [batch_sizes] at hj ⊢
    rw [hget, hlen]
    have hbn : b ≤ num_batches t b * b := Nat.le_mul_of_pos_left b hn
    have hx : num_batches t b * b = (num_batches t b - 1) * b + b := by
      rw [Nat.sub_mul, one_mul]
      omega
    unfold current_batch_size
    omega
  · intro s hs
    rw [batch_sizes] at hs
    obtain ⟨i, hi, rfl⟩ := List.mem_map.mp hs
    rw [List.mem_range] at hi
    have hib : i * b ≤ (num_batches t b - 1) * b :=
      Nat.mul_le_mul_right b (by omega)
    unfold current_batch_size
    generalize i * b = m at hib ⊢
    constructor
    · omega
    · exact Nat.min_le_left _ _

/-- Witness for `batch_partition` at `totalCount = 1001`,
`batchSize = 100`. -/
theorem batch_partition_witness :
    (1 ≤ 1001 ∧ 1 ≤ 100) ∧
    ((((batch_sizes 1001 100).length : ℤ) = ⌈(1001 : ℚ) / (100 : ℚ)⌉) ∧
    (batch_sizes 1001 100).sum = 1001 ∧
    (∀ i, ∀ h : i < (batch_sizes 1001 100).length,
      i + 1 < (batch_sizes 1001 100).length →
        (batch_sizes 1001 100).get ⟨i, h⟩ = 100) ∧
    (∀ h : (batch_sizes 1001 100).length - 1 < (batch_sizes 1001 100).length,
      (batch_sizes 1001 100).get ⟨(batch_sizes 1001 100).length - 1, h⟩ =
        1001 - ((batch_sizes 1001 100).length - 1) * 100) ∧
    (∀ s ∈ batch_sizes 1001 100, 1 ≤ s ∧ s ≤ 100)) :=
  ⟨⟨by decide, by decide⟩, batch_partition 1001 100 (by decide) (by decide)⟩

/-- Successful inserts contributed by one batch (lines 1290-1314),
given the outcome of each record's write (`true` = the `INSERT`
succeeds, `false` = it raises): the loop increments
`successful_inserts` per record until a write raises; the raised error
ends the batch's loop. -/
def batch_successful_inserts : List Bool → Nat
  | [] => 0
  | true :: rest => 1 + batch_successful_inserts rest
  | false :: _ => 0

/-- Number of write attempts made in one batch: the loop attempts each
record in order and stops at the first raising write. -/
def batch_attempted : List Bool → Nat
  | [] => 0
  | true :: rest => 1 + batch_attempted rest
  | false :: _ => 1

/-- Failed inserts contributed by one batch (lines 1332-1337): when any
write of the batch raises, the handler adds the whole
`current_batch_size` — the length of the outcome list — to
`failed_inserts`; otherwise nothing. -/
def batch_failed_inserts (outcomes : List Bool) : Nat :=
  if false ∈ outcomes then outcomes.length else 0

theorem batch_successful_eq_takeWhile (outcomes : List Bool) :
    batch_successful_inserts outcomes =
      (outcomes.takeWhile (fun x => x)).length := by
  induction outcomes with
  | nil => rfl
  | cons hd tl ih =>
      cases hd <;> simp [batch_successful_inserts, List.takeWhile_cons, ih]
      omega

theorem batch_attempted_of_mem (outcomes : List Bool)
    (h : false ∈ outcomes) :
    batch_attempted outcomes = (outcomes.takeWhile (fun x => x)).length + 1 := by
  induction outcomes with
  | nil => cases h
  | cons hd tl ih =>
      cases hd with
      | false => simp [batch_attempted, List.takeWhile_cons]
      | true =>
          have hf : false ∈ tl := by simpa using h
          simp [batch_attempted, List.takeWhile_cons, ih hf]
          omega

theorem batch_attempted_of_not_mem (outcomes : List Bool)
    (h : false ∉ outcomes) :
    batch_attempted outcomes = outcomes.length := by
  induction outcomes with
  | nil => rfl
  | cons hd tl ih =>
      cases hd with
      | false => exact absurd (List.mem_cons_self false tl) h
      | true =>
          have hf : false ∉ tl := fun hmem => h (List.mem_cons_of_mem true hmem)
          simp [batch_attempted, ih hf]
          omega

/-- C2 counterexample: a batch of 3 records whose second write raises.
The code counts 1 success, then the handler adds the whole batch size 3
to the failure count and the third record is never attempted: the batch
contributes 1 + 3 = 4 ≠ 3 and only 2 of its 3 records are attempted,
contradicting per-record failure accounting. -/
theorem batch_failure_counts_whole_batch :
    batch_successful_inserts [true, false, true] = 1 ∧
    batch_failed_inserts [true, false, true] = 3 ∧
    batch_attempted [true, false, true] = 2 ∧
    batch_successful_inserts [true, false, true] +
      batch_failed_inserts [true, false, true] ≠ 3 ∧
    batch_failed_inserts [true, false, true] ≠ 1 := by
  refine ⟨rfl, rfl, rfl, by decide, by decide⟩

/-- C2 (amended): when the write of a record raises a recoverable
error, the batch's loop is aborted: the records before the first
failing one are counted as successes, no later record of the batch is
attempted, and the whole requested batch size is added to the failure
count — so successes plus failures for a batch with a failure equal the
index of the first failure plus the requested size, not the requested
size alone; a batch with no failure contributes exactly its requested
size as successes. -/
theorem batch_failure_accounting (outcomes : List Bool) :
    batch_successful_inserts outcomes =
      (outcomes.takeWhile (fun x => x)).length ∧
    (false ∈ outcomes →
      batch_failed_inserts outcomes = outcomes.length ∧
      batch_attempted outcomes = (outcomes.takeWhile (fun x => x)).length + 1 ∧
      batch_successful_inserts outcomes + batch_failed_inserts outcomes =
        (outcomes.takeWhile (fun x => x)).length + outcomes.length) ∧
    (false ∉ outcomes →
      batch_failed_inserts outcomes = 0 ∧
      batch_attempted outcomes = outcomes.length ∧
      batch_successful_inserts outcomes + batch_failed_inserts outcomes =
        outcomes.length ∧
      batch_successful_inserts outcomes = outcomes.length) := by
  refine ⟨batch_successful_eq_takeWhile outcomes, ?_, ?_⟩
  · intro h
    refine ⟨by simp [batch_failed_inserts, h], batch_attempted_of_mem outcomes h, ?_⟩
    simp [batch_failed_inserts, h, batch_successful_eq_takeWhile]
  · intro h
    have hlen : (outcomes.takeWhile (fun x => x)).length = outcomes.length := by
      have : outcomes.takeWhile (fun x => x) = outcomes := by
        apply List.takeWhile_eq_self_iff.mpr
        intro x hx
        cases x
        · exact absurd hx h
        · rfl
      rw [this]
    refine ⟨by simp [batch_failed_inserts, h], batch_attempted_of_not_mem outcomes h, ?_, ?_⟩
    · simp [batch_failed_inserts, h, batch_successful_eq_takeWhile, hlen]
    · simp [batch_successful_eq_takeWhile, hlen]

/-- Witness for `batch_failure_accounting` at the batch `[true, false]`. -/
theorem batch_failure_accounting_witness :
    batch_successful_inserts [true, false] =
      (([true, false] : List Bool).takeWhile (fun x => x)).length ∧
    batch_failed_inserts [true, false] = ([true, false] : List Bool).length ∧
    batch_attempted [true, false] =
      (([true, false] : List Bool).takeWhile (fun x => x)).length + 1 := by
  have h := batch_failure_accounting [true, false]
  have h2 := h.2.1 (by decide)
  exact ⟨h.1, h2.1, h2.2.1⟩

/-- Insertion loop of `stress_test_insertion` (lines 1270-1337) for a
run in which every attempted write succeeds, instrumented with the
point at which a `KeyboardInterrupt` arrives: `some budget` means the
interrupt fires once `budget` further writes have completed.  The
per-batch handler catches only `Exception`, so the interrupt escapes
the loop mid-batch.  Result: the final `successful_inserts` count and
whether the loop was interrupted. -/
def insertion_loop : List Nat → Option Nat → Nat × Bool
  | [], _ => (0, false)
  | s :: rest, none =>
      ((insertion_loop rest none).1 + s, (insertion_loop rest none).2)
  | s :: rest, some budget =>
      if budget ≤ s then (budget, true)
      else ((insertion_loop rest (some (budget - s))).1 + s,
        (insertion_loop rest (some (budget - s))).2)

/-- `stress_test_insertion` (lines 1214-1362) for a run in which every
attempted write succeeds: after the confirmation prompt it runs the
insertion loop — a `KeyboardInterrupt` is caught at line 1339, so
execution falls through to the final report either way — and the
report's success-rate expression divides by
`successful_inserts + failed_inserts` (line 1352), raising
`ZeroDivisionError` when that sum is zero; otherwise the function
returns `successful_inserts > 0` (line 1362). -/
def stress_test_insertion_run (t b : Nat) (confirm : Bool)
    (cancel : Option Nat) : Except String Bool :=
  if confirm then
    let s := (insertion_loop (batch_sizes t b) cancel).1
    let f := 0
    if s + f = 0 then Except.error "ZeroDivisionError"
    else Except.ok (decide (0 < s))
  else Except.ok false

theorem insertion_loop_budget (sizes : List Nat) (budget : Nat) :
    (insertion_loop sizes (some budget)).1 = min budget sizes.sum := by
  induction sizes generalizing budget with
  | nil => simp [insertion_loop]
  | cons s rest ih =>
      rw [List.sum_cons]
      by_cases h : budget ≤ s
      · simp [insertion_loop, h]
        omega
      · simp [insertion_loop, h, ih]
        omega

theorem batch_sizes_sum (t b : Nat) (hb : 1 ≤ b) :
    (batch_sizes t b).sum = t := by
  rw [batch_sizes, sum_current_batch_sizes]
  rcases Nat.eq_zero_or_pos t with rfl | ht
  · simp
  · exact Nat.min_eq_right (num_batches_bounds t b hb ht).2

/-- C9 counterexample: with 500 records in batches of 50, an interrupt
arriving after 160 writes — 3 complete batches plus 10 writes of the
4th — yields an aggregate of 160 successes: the started 4th batch does
not complete and its 10 partial successes are counted, where the claim
allows only 150 (cancellation honoured at the boundary, no partial
4th-batch entries) or 200 (in-flight batch running to completion). -/
theorem interrupt_counts_partial_batch :
    (insertion_loop (batch_sizes 500 50) (some 160)).1 = 160 ∧
    (insertion_loop (batch_sizes 500 50) (some 160)).2 = true ∧
    stress_test_insertion_run 500 50 true (some 160) = Except.ok true ∧
    (160 : Nat) ≠ 150 ∧ (160 : Nat) ≠ 200 := by
  refine ⟨by decide, by decide, rfl, by decide, by decide⟩

/-- C9 (amended): an interrupt arriving after `c` completed writes
(all of them successful) stops the run at exactly that write, also in
the middle of a batch: the aggregate counts `min c totalCount`
successes — including the partial successes of the batch in flight —
and the run returns normally instead of raising, because the
interrupt is caught at the top of the function. -/
theorem interrupt_stops_at_write (t b c : Nat) (hb : 1 ≤ b) (ht : 1 ≤ t)
    (hc : 1 ≤ c) :
    (insertion_loop (batch_sizes t b) (some c)).1 = min c t ∧
    stress_test_insertion_run t b true (some c) = Except.ok true := by
  have hs : (insertion_loop (batch_sizes t b) (some c)).1 = min c t := by
    rw [insertion_loop_budget, batch_sizes_sum t b hb]
  refine ⟨hs, ?_⟩
  have hpos : 0 < min c t := by omega
  simp [stress_test_insertion_run, hs, hpos, Nat.pos_iff_ne_zero.mp hpos]

/-- Witness for `interrupt_stops_at_write` at `t = 500`, `b = 50`,
`c = 160`. -/
theorem interrupt_stops_at_write_witness :
    (insertion_loop (batch_sizes 500 50) (some 160)).1 = min 160 500 ∧
    stress_test_insertion_run 500 50 true (some 160) = Except.ok true :=
  interrupt_stops_at_write 500 50 160 (by decide) (by decide) (by decide)

/-- C10: with `total_records = 0` and the confirmation accepted the
loop issues zero batches, so zero writes are attempted and both
counters stay 0; the success-rate expression of the final report then
divides by zero and the run raises instead of returning. -/
theorem zero_records_division_by_zero (b : Nat) (hb : 1 ≤ b)
    (cancel : Option Nat) :
    batch_sizes 0 b = [] ∧
    stress_test_insertion_run 0 b true cancel =
      Except.error "ZeroDivisionError" := by
  have hnb : num_batches 0 b = 0 := by
    unfold num_batches
    exact Nat.div_eq_of_lt (by omega)
  have hempty : batch_sizes 0 b = [] := by
    simp [batch_sizes, hnb]
  refine ⟨hempty, ?_⟩
  simp [stress_test_insertion_run, hempty, insertion_loop]

/-- Witness for `zero_records_division_by_zero` at batch size 100 with
no interrupt. -/
theorem zero_records_division_by_zero_witness :
    batch_sizes 0 100 = [] ∧
    stress_test_insertion_run 0 100 true none =
      Except.error "ZeroDivisionError" :=
  zero_records_division_by_zero 100 (by decide) none

/-- The fixed query corpus of `KnowledgeBaseTestSuite.__init__`
(lines 49-80), in source order. -/
def test_queries : List String :=
  ["Find papers about machine learning",
   "Show me research on neural networks",
   "What papers discuss computer vision?",
   "Find papers by authors with last name Smith",
   "Show papers published in 2023",
   "Find papers in cs.AI category",
   "What are the latest developments in deep learning?",
   "Find papers about natural language processing applications",
   "Show me research on autonomous vehicles and robotics",
   "What papers discuss medical AI and healthcare?",
   "Find papers about cybersecurity and machine learning",
   "Show research on climate change and data science",
   "Find papers about transformer architectures",
   "Show me research on reinforcement learning algorithms",
   "What papers discuss graph neural networks?",
   "Find papers about computer vision in healthcare",
   "Show me research on federated learning",
   "Find papers about adversarial machine learning",
   "Show me the most cited papers",
   "Find recent papers with high impact",
   "What are the trending research topics?",
   "Show papers with more than 100 citations",
   "Find interdisciplinary papers combining AI and biology",
   "Show research connecting machine learning and physics",
   "Find papers about AI applications in finance"]

/-- C7: `test_search_performance` (lines 130-132) draws
`min(num_queries, len(test_queries))` queries via `random.sample`,
i.e. without replacement: any drawn list `sel` is a permutation of a
sublist of the corpus of that length.  Hence no query string is issued
twice in one probe run, and when the requested sample size reaches or
exceeds the corpus size the whole corpus — which has 25 ≥ 20 entries —
is used exactly once. -/
theorem query_probe_sampling (k : Nat) (sel : List String)
    (hlen : sel.length = min k test_queries.length)
    (hsub : sel.Subperm test_queries) :
    sel.Nodup ∧ (test_queries.length ≤ k → sel.Perm test_queries) ∧
    20 ≤ test_queries.length := by
  have hnd : test_queries.Nodup := by decide
  refine ⟨?_, ?_, by decide⟩
  · obtain ⟨l, hperm, hsl⟩ := hsub
    exact hperm.nodup (hnd.sublist hsl)
  · intro hk
    refine hsub.perm_of_length_le ?_
    rw [hlen]
    omega

/-- Witness for `query_probe_sampling` with requested sample size 30
and the full corpus as the drawn list. -/
theorem query_probe_sampling_witness :
    test_queries.Nodup ∧
    (test_queries.length ≤ 30 → test_queries.Perm test_queries) ∧
    20 ≤ test_queries.length :=
  query_probe_sampling 30 test_queries (by decide) (List.Subperm.refl _)

/-- Python `int()` applied to a real value: truncation toward zero. -/
def pythonInt (x : ℚ) : ℤ := if 0 ≤ x then ⌊x⌋ else ⌈x⌉

/-- `base_citations` of `generate_fake_paper` (line 1143):
`max(0, int(expovariate_draw * paper_age_years * 10))`, where `e` is
the exponential draw and `age` the paper age in years. -/
def base_citations (e age : ℚ) : ℤ := max 0 (pythonInt (e * age * 10))

/-- `citation_count` of `generate_fake_paper` (line 1144):
`max(0, base_citations + randint(-50, 200))`, with `u` the uniform
integer draw. -/
def citation_count (e age : ℚ) (u : ℤ) : ℤ :=
  max 0 (base_citations e age + u)

/-- C8 counterexample: with exponential draw 27/100, age 1 year and
uniform draw 0 the base term is 2.7; the code's `int()` truncates it to
2, while the claim's round-to-nearest yields 3. -/
theorem citation_count_truncates_not_rounds :
    citation_count (27/100) 1 0 = 2 ∧
    max 0 (round (max (0 : ℚ) (27/100 * 1 * 10)) + 0) = (3 : ℤ) ∧
    (2 : ℤ) ≠ 3 := by
  refine ⟨?_, ?_, by decide⟩
  · norm_num [citation_count, base_citations, pythonInt, max_def]
  · norm_num [round_eq, max_def]

/-- C8 (amended): for nonnegative draws, the citation count equals
`max(0, trunc(e * age * 10) + u)` — the base term truncated toward zero
(here the floor, the term being nonnegative), not rounded to nearest —
and it is always a nonnegative integer. -/
theorem citation_count_trunc (e age : ℚ) (u : ℤ) (he : 0 ≤ e)
    (ha : 0 ≤ age) :
    citation_count e age u = max 0 (⌊e * age * 10⌋ + u) ∧
    0 ≤ citation_count e age u := by
  have hx : (0 : ℚ) ≤ e * age * 10 := by positivity
  have hfl : (0 : ℤ) ≤ ⌊e * age * 10⌋ := Int.floor_nonneg.mpr hx
  constructor
  · unfold citation_count base_citations pythonInt
    rw [if_pos hx, max_eq_right hfl]
  · exact le_max_left 0 _

/-- Witness for `citation_count_trunc` at exponential draw 27/100,
age 1 and uniform draw 0. -/
theorem citation_count_trunc_witness :
    ((0 : ℚ) ≤ 27/100 ∧ (0 : ℚ) ≤ 1) ∧
    (citation_count (27/100) 1 0 = max 0 (⌊(27/100 : ℚ) * 1 * 10⌋ + 0) ∧
      0 ≤ citation_count (27/100) 1 0) :=
  ⟨⟨by norm_num, by norm_num⟩,
    citation_count_trunc (27/100) 1 0 (by norm_num) (by norm_num)⟩

end ScholarMap
